import Mathlib

/-!
# Verification of the Request Coordination Layer

Shallow embedding of the core of `@umituz/react-native-firestore`:
the query-deduplication middleware, the quota monitor and calculator,
the request-log aggregator, the quota-tracking middleware and the
pagination helper, together with proofs about their contracts.

JavaScript numbers are modelled as `Int` for counters/durations and as
`Rat` for the percentage arithmetic of the quota calculator (exact
arithmetic standing in for IEEE doubles, which agree on all integer
threshold comparisons relevant here).  JavaScript `Map` state is
modelled as an association list with `Map.set`/`get`/`delete`
semantics; promises are modelled by identifiers, with two calls
receiving the same identifier meaning they share the identical
settlement (value or rejection).
-/

namespace Firestore

/-! ## Pagination helper (`src/utils/pagination.helper.ts`) -/

/-- Embeds `PaginatedResult<T>` from `src/types/pagination.types.ts`. -/
structure PaginatedResult (T : Type) where
  items : List T
  nextCursor : Option String
  hasMore : Bool
  deriving Repr, DecidableEq

namespace PaginationHelper

/-- Embeds `PaginationHelper.buildResult` from `src/utils/pagination.helper.ts`:
`hasMore = items.length > pageLimit`; trims to the first `pageLimit`
items when `hasMore`; `nextCursor = getCursor(resultItems[resultItems.length-1])`
when `hasMore` and the trimmed list is non-empty, else `null`. -/
def buildResult {T : Type} (items : List T) (pageLimit : Nat)
    (getCursor : T → String) : PaginatedResult T :=
  let hasMore : Bool := decide (items.length > pageLimit)
  let resultItems : List T := if hasMore then items.take pageLimit else items
  let nextCursor : Option String :=
    if hasMore && decide (resultItems.length > 0) then
      resultItems.getLast?.map getCursor
    else none
  { items := resultItems, nextCursor := nextCursor, hasMore := hasMore }

/-- Embeds `PaginationHelper.getFetchLimit`: `pageLimit + 1`. -/
def getFetchLimit (pageLimit : Nat) : Nat := pageLimit + 1

end PaginationHelper

/-! ## Quota error detector (`src/utils/quota-error-detector.util.ts`) -/

/-- Embeds `pat.isPrefixOf l || containsList pat rest`: list-of-characters
substring search, the embedding of JavaScript `String.includes`. -/
def containsList (pat : List Char) : List Char → Bool
  | [] => List.isEmpty pat
  | c :: rest => List.isPrefixOf pat (c :: rest) || containsList pat rest

/-- Embeds `s.toLowerCase().includes(pat)` for an optional string, with
`?.toLowerCase() || ""` defaulting to the empty string. -/
def lowerIncludes (s : Option String) (pat : String) : Bool :=
  containsList pat.data (((s.getD "").data).map Char.toLower)

/-- The error shapes inspected by the detector: a non-object value, or
an object exposing optional `code`, `message` and `name` fields. -/
inductive JsError
  | nonObject
  | obj (code message name : Option String)
  deriving Repr, DecidableEq

/-- Embeds `isQuotaError` from `src/utils/quota-error-detector.util.ts`:
non-objects are not quota errors; otherwise `code === "resource-exhausted"`,
or the lowercased message includes `"quota"`, `"quota exceeded"`,
`"resource-exhausted"` or `"daily limit"`, or the lowercased name
includes `"quota"` or `"resource-exhausted"`. -/
def isQuotaError : JsError → Bool
  | .nonObject => false
  | .obj code message name =>
    if code == some "resource-exhausted" then true
    else if lowerIncludes message "quota" || lowerIncludes message "quota exceeded"
        || lowerIncludes message "resource-exhausted"
        || lowerIncludes message "daily limit" then true
    else if lowerIncludes name "quota" || lowerIncludes name "resource-exhausted" then true
    else false

/-- Embeds `isRetryableError` from `src/utils/quota-error-detector.util.ts`:
quota errors are never retryable; then `failed-precondition`,
`unavailable` and `deadline-exceeded` codes and messages including
`"timeout"` are retryable. -/
def isRetryableError (e : JsError) : Bool :=
  if isQuotaError e then false
  else match e with
    | .nonObject => false
    | .obj code message _ =>
      if code == some "failed-precondition" then true
      else if code == some "unavailable" || code == some "deadline-exceeded" then true
      else if lowerIncludes message "timeout" then true
      else false

/-! ## Quota metrics, limits and calculator
(`src/unnamed/part_007` entities, `src/unnamed/part_006` constants,
`src/unnamed/part_008` `QuotaCalculator`) -/

/-- Embeds `QuotaMetrics` entity: running counters plus the window-start
timestamp (`timestamp` field in the source). -/
structure QuotaMetrics where
  readCount : Int
  writeCount : Int
  deleteCount : Int
  timestamp : Int
  deriving Repr, DecidableEq

/-- Embeds `QuotaLimits` entity. -/
structure QuotaLimits where
  dailyReadLimit : Int
  dailyWriteLimit : Int
  dailyDeleteLimit : Int
  deriving Repr, DecidableEq

/-- Embeds `QuotaStatus` entity: metrics, limits, the three percentages and
the two derived flags. -/
structure QuotaStatus where
  metrics : QuotaMetrics
  limits : QuotaLimits
  readPercentage : Rat
  writePercentage : Rat
  deletePercentage : Rat
  isNearLimit : Bool
  isOverLimit : Bool
  deriving Repr, DecidableEq

/-- Embeds `FREE_TIER_LIMITS`-derived `DEFAULT_QUOTA_LIMITS` from the
`QuotaCalculator` module: 50 000 reads, 20 000 writes, 20 000 deletes. -/
def DEFAULT_QUOTA_LIMITS : QuotaLimits :=
  { dailyReadLimit := 50000, dailyWriteLimit := 20000, dailyDeleteLimit := 20000 }

namespace QuotaCalculator

/-- Embeds `QuotaCalculator.calculateStatus`: percentage = `(count / limit) * 100`
for each operation kind; `isNearLimit` iff any percentage ≥ 80;
`isOverLimit` iff any percentage ≥ 100. -/
def calculateStatus (metrics : QuotaMetrics) (limits : QuotaLimits) : QuotaStatus :=
  let readPercentage : Rat := (metrics.readCount : Rat) / (limits.dailyReadLimit : Rat) * 100
  let writePercentage : Rat := (metrics.writeCount : Rat) / (limits.dailyWriteLimit : Rat) * 100
  let deletePercentage : Rat := (metrics.deleteCount : Rat) / (limits.dailyDeleteLimit : Rat) * 100
  let isNearLimit : Bool :=
    decide (readPercentage ≥ 80) || decide (writePercentage ≥ 80)
      || decide (deletePercentage ≥ 80)
  let isOverLimit : Bool :=
    decide (readPercentage ≥ 100) || decide (writePercentage ≥ 100)
      || decide (deletePercentage ≥ 100)
  { metrics := metrics, limits := limits,
    readPercentage := readPercentage, writePercentage := writePercentage,
    deletePercentage := deletePercentage,
    isNearLimit := isNearLimit, isOverLimit := isOverLimit }

/-- Embeds `QuotaCalculator.getDefaultLimits`. -/
def getDefaultLimits : QuotaLimits := DEFAULT_QUOTA_LIMITS

/-- Embeds `QuotaCalculator.isWithinLimits`. -/
def isWithinLimits (metrics : QuotaMetrics) (limits : QuotaLimits) : Bool :=
  !(calculateStatus metrics limits).isOverLimit

end QuotaCalculator

/-! ## Quota monitor (`src/infrastructure/services/QuotaMonitorService.ts`)

The service's mutable `metrics` field is the state; `notifyListeners`
only invokes callbacks (with exceptions caught) and never changes the
metrics, so the metric-level semantics of each public mutator is a pure
state transformer. -/

namespace QuotaMonitorService

/-- The three increment mutators, as events applied to the metrics
state: `incrementRead` adds `count` to `readCount`, and likewise for
writes and deletes. -/
inductive QuotaEvent
  | incrementRead (count : Int)
  | incrementWrite (count : Int)
  | incrementDelete (count : Int)
  deriving Repr, DecidableEq

/-- Apply one increment mutator to the metrics state. -/
def applyEvent (m : QuotaMetrics) : QuotaEvent → QuotaMetrics
  | .incrementRead count => { m with readCount := m.readCount + count }
  | .incrementWrite count => { m with writeCount := m.writeCount + count }
  | .incrementDelete count => { m with deleteCount := m.deleteCount + count }

/-- Embeds `resetMetrics`: all counters zero, window timestamp set to
`Date.now()` (the same state the constructor builds). -/
def resetMetrics (now : Int) : QuotaMetrics :=
  { readCount := 0, writeCount := 0, deleteCount := 0, timestamp := now }

/-- Embeds `getMetrics` returns a copy of the metrics. -/
def getMetrics (m : QuotaMetrics) : QuotaMetrics := m

/-- The counts passed to the `incrementRead` calls of an event
sequence. -/
def readIncrements (evs : List QuotaEvent) : List Int :=
  evs.filterMap fun e => match e with
    | .incrementRead count => some count
    | _ => none

end QuotaMonitorService

/-! ## Request log (`src/domain/entities/RequestLog.ts`,
`src/infrastructure/services/RequestLoggerService.ts`)

The service's mutable `logs` array is the state; development-mode
console output and listener notification (exceptions caught) do not
change the log, so `logRequest` is a pure state transformer once the
generated `id` and `Date.now()` timestamp are supplied as inputs. -/

/-- Embeds `RequestType = 'read' | 'write' | 'delete' | 'listener'`. -/
inductive RequestType
  | read
  | write
  | delete
  | listener
  deriving Repr, DecidableEq

/-- Embeds `RequestLog` entity. -/
structure RequestLog where
  id : String
  timestamp : Int
  type : RequestType
  collection : String
  documentId : Option String
  success : Bool
  error : Option String
  cached : Bool
  duration : Option Int
  deriving Repr, DecidableEq

/-- Embeds `Omit<RequestLog, 'id' | 'timestamp'>`, the argument of
`logRequest`. -/
structure RequestLogInput where
  type : RequestType
  collection : String
  documentId : Option String
  success : Bool
  error : Option String
  cached : Bool
  duration : Option Int
  deriving Repr, DecidableEq

namespace RequestLoggerService

/-- Embeds `MAX_LOGS` capacity of the request log. -/
def MAX_LOGS : Nat := 1000

/-- The array discipline of `logRequest`: `push` the completed entry,
then `shift()` (drop the oldest, i.e. first, entry) when the length
exceeds `MAX_LOGS`. -/
def logAppend (logs : List RequestLog) (fullLog : RequestLog) : List RequestLog :=
  let l := logs ++ [fullLog]
  if l.length > MAX_LOGS then l.drop 1 else l

/-- Embeds `logRequest`: stamp the generated `id` and `Date.now()` timestamp
onto the input and append under the capacity discipline. -/
def logRequest (logs : List RequestLog) (input : RequestLogInput)
    (id : String) (now : Int) : List RequestLog :=
  logAppend logs
    { id := id, timestamp := now, type := input.type,
      collection := input.collection, documentId := input.documentId,
      success := input.success, error := input.error,
      cached := input.cached, duration := input.duration }

end RequestLoggerService

/-! ## Quota tracking middleware (`QuotaTrackingMiddleware`, second
module of `src/types/pagination.types.ts` in the source pack) -/

/-- The settled outcome of the awaited `operationFn()` promise: a value
or a rejection carrying the error message the catch block extracts. -/
inductive JsOutcome (T : Type)
  | ok (t : T)
  | err (msg : String)
  deriving Repr, DecidableEq

/-- Embeds `TrackedOperation` metadata handed to `trackOperation`
(`cached || false` is modelled by a plain `Bool`). -/
structure TrackedOperation where
  type : RequestType
  collection : String
  documentId : Option String
  count : Int
  cached : Bool
  deriving Repr, DecidableEq

namespace QuotaTrackingMiddleware

open QuotaMonitorService RequestLoggerService

/-- Embeds `QuotaTrackingMiddleware.trackOperation`: on success, branch on the
operation type — `read`/`write`/`delete` increment the matching quota
counter and log a success entry with duration and (for reads) the cache
flag; the success path has no `listener` branch, so a successful
listener operation updates nothing. On failure, one failure entry with
the error message and duration is logged and the original rejection is
rethrown. The settled outcome, duration, generated log id and
`Date.now()` are inputs; the result is the returned/rethrown outcome
together with the updated quota metrics and request log. -/
def trackOperation {T : Type} (op : TrackedOperation) (outcome : JsOutcome T)
    (duration : Int) (id : String) (now : Int)
    (qm : QuotaMetrics) (logs : List RequestLog) :
    JsOutcome T × QuotaMetrics × List RequestLog :=
  match outcome with
  | .ok t =>
    match op.type with
    | .read =>
      (.ok t, applyEvent qm (.incrementRead op.count),
        logRequest logs
          ⟨.read, op.collection, op.documentId, true, none, op.cached, some duration⟩ id now)
    | .write =>
      (.ok t, applyEvent qm (.incrementWrite op.count),
        logRequest logs
          ⟨.write, op.collection, op.documentId, true, none, false, some duration⟩ id now)
    | .delete =>
      (.ok t, applyEvent qm (.incrementDelete op.count),
        logRequest logs
          ⟨.delete, op.collection, op.documentId, true, none, false, some duration⟩ id now)
    | .listener => (.ok t, qm, logs)
  | .err msg =>
    (.err msg, qm,
      logRequest logs
        ⟨op.type, op.collection, op.documentId, false, some msg, false, some duration⟩ id now)

end QuotaTrackingMiddleware

/-! ## Query deduplication middleware
(`src/infrastructure/middleware/QueryDeduplicationMiddleware.ts`)

The middleware's state is its `pendingQueries: Map<string, PendingQuery>`
(modelled as an association list with `Map` get/set/delete semantics —
no claim depends on iteration order), the `promise.finally` handlers
registered by `addPendingQuery` (each deletes its captured key when its
promise settles), and the cleanup-interval timer flag.  Promises are
identifiers: two calls returning the same identifier share the
identical settlement.  `Date.now()` is an explicit input; the
single-threaded event-loop interleaving is modelled by applying the
operations (`deduplicate`, promise settlement, the periodic sweep,
`clear`, `destroy`) in sequence. -/

namespace QueryDeduplicationMiddleware

/-- Embeds `DEDUPLICATION_WINDOW_MS = 1000`. -/
def DEDUPLICATION_WINDOW_MS : Nat := 1000

/-- Embeds `QueryKey` interface: `collection`, `filters`, optional `limit` and
`orderBy`. -/
structure QueryKey where
  collection : String
  filters : String
  limit : Option Int
  orderBy : Option String
  deriving Repr, DecidableEq

/-- Embeds `generateQueryKey`: `[collection, filters, limit?.toString() || "",
orderBy || ""].join("|")`. -/
def generateQueryKey (key : QueryKey) : String :=
  key.collection ++ "|" ++ key.filters ++ "|"
    ++ (key.limit.map toString).getD "" ++ "|" ++ key.orderBy.getD ""

/-- Embeds `PendingQuery`: the stored promise (by identifier) and the
registration timestamp. -/
structure PendingQuery where
  promiseId : Nat
  timestamp : Nat
  deriving Repr, DecidableEq

/-- Embeds `Map.get`. -/
def mapGet (k : String) (m : List (String × PendingQuery)) : Option PendingQuery :=
  (m.find? fun e => e.1 == k).map fun e => e.2

/-- Embeds `Map.delete`. -/
def mapDelete (k : String) (m : List (String × PendingQuery)) :
    List (String × PendingQuery) :=
  m.filter fun e => e.1 != k

/-- Embeds `Map.set`. -/
def mapSet (k : String) (v : PendingQuery)
    (m : List (String × PendingQuery)) : List (String × PendingQuery) :=
  mapDelete k m ++ [(k, v)]

/-- Middleware state: the pending-query map, the registered
`promise.finally` handlers as (promiseId, captured key) pairs, the
cleanup-interval flag, and a supply of fresh promise identifiers. -/
structure MState where
  pendingQueries : List (String × PendingQuery)
  finalizers : List (Nat × String)
  cleanupTimerActive : Bool
  nextPromiseId : Nat
  deriving Repr, DecidableEq

/-- The constructor: empty map, cleanup timer started. -/
def initial : MState :=
  { pendingQueries := [], finalizers := [], cleanupTimerActive := true,
    nextPromiseId := 0 }

/-- Embeds `cleanupExpiredQueries`: delete every entry with
`now - timestamp > DEDUPLICATION_WINDOW_MS`. -/
def cleanupExpiredQueries (now : Nat) (s : MState) : MState :=
  { s with pendingQueries :=
      s.pendingQueries.filter fun e =>
        !(decide (now - e.2.timestamp > DEDUPLICATION_WINDOW_MS)) }

/-- One firing of the cleanup interval: sweeps only while the timer is
active. -/
def sweep (now : Nat) (s : MState) : MState :=
  if s.cleanupTimerActive then cleanupExpiredQueries now s else s

/-- Embeds `isQueryPending`, including its lazy eviction side effect: a missing
entry is not pending; an entry older than the window is deleted and not
pending; otherwise pending. -/
def isQueryPendingCheck (now : Nat) (key : String) (s : MState) : Bool × MState :=
  match mapGet key s.pendingQueries with
  | none => (false, s)
  | some pending =>
    if now - pending.timestamp > DEDUPLICATION_WINDOW_MS then
      (false, { s with pendingQueries := mapDelete key s.pendingQueries })
    else (true, s)

/-- Embeds `addPendingQuery`: store the promise under the key with the current
timestamp and register the `promise.finally` handler that deletes the
captured key when the promise settles. -/
def addPendingQuery (now : Nat) (key : String) (promiseId : Nat) (s : MState) : MState :=
  { s with
    pendingQueries := mapSet key ⟨promiseId, now⟩ s.pendingQueries,
    finalizers := s.finalizers ++ [(promiseId, key)] }

/-- What a `deduplicate` call returned: the shared in-flight promise of
an earlier call (`queryFn` not invoked), or a fresh invocation of
`queryFn` producing a new promise. -/
inductive DedupResult
  | attached (promiseId : Nat)
  | invoked (promiseId : Nat)
  deriving Repr, DecidableEq

/-- The miss path of `deduplicate`: `const promise = queryFn();
this.addPendingQuery(key, promise); return promise`. -/
def invokeFresh (now : Nat) (key : String) (s : MState) : DedupResult × MState :=
  (.invoked s.nextPromiseId,
    addPendingQuery now key s.nextPromiseId
      { s with nextPromiseId := s.nextPromiseId + 1 })

/-- Embeds `deduplicate`: generate the key; if `isQueryPending` and the stored
promise is non-null, return it (attach); otherwise invoke `queryFn`
fresh and register the resulting promise. -/
def deduplicate (now : Nat) (queryKey : QueryKey) (s : MState) : DedupResult × MState :=
  let key := generateQueryKey queryKey
  let checked := isQueryPendingCheck now key s
  if checked.1 then
    match mapGet key checked.2.pendingQueries with
    | some pending => (.attached pending.promiseId, checked.2)
    | none => invokeFresh now key checked.2
  else invokeFresh now key checked.2

/-- Settlement of promise `p`: every `finally` handler registered for
`p` runs, each deleting its captured key from the map (regardless of
what is currently stored there); the handlers are consumed. -/
def settle (p : Nat) (s : MState) : MState :=
  { s with
    pendingQueries :=
      ((s.finalizers.filter fun f => f.1 == p).map fun f => f.2).foldl
        (fun m k => mapDelete k m) s.pendingQueries,
    finalizers := s.finalizers.filter fun f => f.1 != p }

/-- Embeds `clear`: drop all entries. -/
def clear (s : MState) : MState := { s with pendingQueries := [] }

/-- Embeds `destroy`: stop the cleanup timer and clear all entries. -/
def destroy (s : MState) : MState :=
  { s with cleanupTimerActive := false, pendingQueries := [] }

/-- Embeds `getPendingCount`. -/
def getPendingCount (s : MState) : Nat := s.pendingQueries.length

end QueryDeduplicationMiddleware

/-! ## Theorems -/

namespace QueryDeduplicationMiddleware

theorem mapGet_mapDelete_self (k : String) (m : List (String × PendingQuery)) :
    mapGet k (mapDelete k m) = none := by
  have h : (mapDelete k m).find? (fun e => e.1 == k) = none := by
    rw [List.find?_eq_none]
    intro x hx
    have hmem := List.of_mem_filter hx
    simpa using hmem
  simp [mapGet, h]

theorem mapGet_mapSet_self (k : String) (v : PendingQuery)
    (m : List (String × PendingQuery)) : mapGet k (mapSet k v m) = some v := by
  have h : (mapDelete k m).find? (fun e => e.1 == k) = none := by
    rw [List.find?_eq_none]
    intro x hx
    have hmem := List.of_mem_filter hx
    simpa using hmem
  simp [mapGet, mapSet, List.find?_append, h]

theorem mapGet_mapDelete_none {k : String} {m : List (String × PendingQuery)}
    (k2 : String) (h : mapGet k m = none) : mapGet k (mapDelete k2 m) = none := by
  rw [mapGet, Option.map_eq_none'] at h ⊢
  rw [List.find?_eq_none] at h ⊢
  intro x hx
  exact h x (List.mem_of_mem_filter hx)

theorem mapGet_foldl_mapDelete_none {k : String} (ks : List String)
    {m : List (String × PendingQuery)} (h : mapGet k m = none) :
    mapGet k (ks.foldl (fun acc k2 => mapDelete k2 acc) m) = none := by
  induction ks generalizing m with
  | nil => exact h
  | cons hd tl ih => exact ih (mapGet_mapDelete_none hd h)

theorem mapGet_foldl_mapDelete {k : String} (ks : List String)
    (m : List (String × PendingQuery)) (hk : k ∈ ks) :
    mapGet k (ks.foldl (fun acc k2 => mapDelete k2 acc) m) = none := by
  induction ks generalizing m with
  | nil => cases hk
  | cons hd tl ih =>
    rcases List.mem_cons.mp hk with h | h
    · subst h
      exact mapGet_foldl_mapDelete_none tl (mapGet_mapDelete_self k m)
    · exact ih _ h

/-- Any path of `deduplicate` that invokes `queryFn` leaves the fresh
promise registered under the generated key with the call's timestamp. -/
theorem deduplicate_invoked_get {t : Nat} {qk : QueryKey} {s s1 : MState} {p : Nat}
    (h : deduplicate t qk s = (.invoked p, s1)) :
    mapGet (generateQueryKey qk) s1.pendingQueries = some ⟨p, t⟩ := by
  simp only [deduplicate] at h
  split at h
  · split at h
    · simp at h
    · simp only [invokeFresh, Prod.mk.injEq, DedupResult.invoked.injEq] at h
      obtain ⟨hp, hs⟩ := h
      subst hp; subst hs
      exact mapGet_mapSet_self _ _ _
  · simp only [invokeFresh, Prod.mk.injEq, DedupResult.invoked.injEq] at h
    obtain ⟨hp, hs⟩ := h
    subst hp; subst hs
    exact mapGet_mapSet_self _ _ _

/-- If the generated key maps to an unexpired promise, `deduplicate`
attaches to it and leaves the state unchanged. -/
theorem deduplicate_attaches_of_get {t1 t2 : Nat} {qk : QueryKey} {s : MState} {p : Nat}
    (hget : mapGet (generateQueryKey qk) s.pendingQueries = some ⟨p, t1⟩)
    (hw : t2 - t1 ≤ DEDUPLICATION_WINDOW_MS) :
    deduplicate t2 qk s = (.attached p, s) := by
  have hcheck : isQueryPendingCheck t2 (generateQueryKey qk) s = (true, s) := by
    have hlt : ¬ (t2 - t1 > DEDUPLICATION_WINDOW_MS) := by omega
    simp [isQueryPendingCheck, hget, hlt]
  simp [deduplicate, hcheck, hget]

/-- C1 counterexample: the first call registers at `t = 0` and its
computation never settles; a second identical call at `t = 1001` — one
millisecond past the deduplication window — triggers a second fresh
execution instead of attaching, so unsettledness of the first
computation is not the only condition for attachment. -/
theorem dedup_unsettled_expires_after_window :
    (deduplicate 0 ⟨"a", "f", none, none⟩ initial).1 = .invoked 0 ∧
    (deduplicate 1001 ⟨"a", "f", none, none⟩
      (deduplicate 0 ⟨"a", "f", none, none⟩ initial).2).1 = .invoked 1 := by
  constructor <;> decide

/-- C1 (amended): if a call to `deduplicate` invoked its computation at
time `t1` and, while that computation is still unsettled, a second call
with the same query key is issued at time `t2` within the deduplication
window (`t2 - t1 ≤ 1000 ms`), the second call attaches to the first
call's in-flight promise — the computation is not invoked again and the
state is unchanged, so both calls share the identical settlement. -/
theorem dedup_second_call_attaches_within_window
    (s : MState) (qk : QueryKey) (t1 t2 p : Nat) (s1 : MState)
    (h : deduplicate t1 qk s = (.invoked p, s1)) (h12 : t1 ≤ t2)
    (hw : t2 - t1 ≤ DEDUPLICATION_WINDOW_MS) :
    deduplicate t2 qk s1 = (.attached p, s1) :=
  deduplicate_attaches_of_get (deduplicate_invoked_get h) hw

/-- C1 witness: a call at `t = 0` followed by an identical call at
`t = 500` attaches to the first call's promise. -/
theorem dedup_second_call_attaches_within_window_witness :
    deduplicate 500 ⟨"a", "f", none, none⟩
      ⟨[("a|f||", ⟨0, 0⟩)], [(0, "a|f||")], true, 1⟩ =
      (.attached 0, ⟨[("a|f||", ⟨0, 0⟩)], [(0, "a|f||")], true, 1⟩) :=
  dedup_second_call_attaches_within_window initial ⟨"a", "f", none, none⟩ 0 500 0
    ⟨[("a|f||", ⟨0, 0⟩)], [(0, "a|f||")], true, 1⟩ (by decide) (by decide) (by decide)

/-- C3 counterexample: after `destroy()`, a first call invokes fresh,
but an identical query issued while that post-teardown computation is
still in flight attaches to it instead of invoking the computation
fresh — `destroy` does not disable deduplication. -/
theorem destroy_then_concurrent_call_attaches :
    (deduplicate 0 ⟨"a", "f", none, none⟩ (destroy initial)).1 = .invoked 0 ∧
    (deduplicate 0 ⟨"a", "f", none, none⟩
      (deduplicate 0 ⟨"a", "f", none, none⟩ (destroy initial)).2).1 = .attached 0 := by
  constructor <;> decide

/-- C3 (amended): `destroy` stops the cleanup timer and empties the
pending-query map, so the next `deduplicate` call for any fingerprint
is a cache miss invoking its computation fresh; deduplication itself
remains active afterwards (see the counterexample for an in-flight
post-teardown query being shared). -/
theorem destroy_clears_and_next_call_misses (s : MState) (t : Nat) (qk : QueryKey) :
    (destroy s).pendingQueries = [] ∧
    (destroy s).cleanupTimerActive = false ∧
    (deduplicate t qk (destroy s)).1 = .invoked s.nextPromiseId := by
  refine ⟨rfl, rfl, ?_⟩
  simp [deduplicate, isQueryPendingCheck, destroy, mapGet, invokeFresh]

/-- C10: when a promise settles, every `finally` handler registered for
it deletes its captured key from the pending map, regardless of whether
the entry currently stored there belongs to a newer, still-unsettled
computation; concretely, a query registered at `t = 0` that outlives the
window, re-registered fresh at `t = 1500`, loses its new entry the
moment the old promise settles, so an identical query at `t = 1600`
starts a third execution although the second is in flight and within
the window. -/
theorem settle_deletes_entry_of_key :
    (∀ (s : MState) (p : Nat) (key : String), (p, key) ∈ s.finalizers →
      mapGet key (settle p s).pendingQueries = none) ∧
    ((deduplicate 0 ⟨"a", "f", none, none⟩ initial).1 = .invoked 0 ∧
      (deduplicate 1500 ⟨"a", "f", none, none⟩
        (deduplicate 0 ⟨"a", "f", none, none⟩ initial).2).1 = .invoked 1 ∧
      mapGet "a|f||" (settle 0 (deduplicate 1500 ⟨"a", "f", none, none⟩
        (deduplicate 0 ⟨"a", "f", none, none⟩ initial).2).2).pendingQueries = none ∧
      (deduplicate 1600 ⟨"a", "f", none, none⟩ (settle 0
        (deduplicate 1500 ⟨"a", "f", none, none⟩
          (deduplicate 0 ⟨"a", "f", none, none⟩ initial).2).2)).1 = .invoked 2) := by
  constructor
  · intro s p key h
    have hmem : key ∈ (s.finalizers.filter fun f => f.1 == p).map fun f => f.2 := by
      exact List.mem_map.mpr ⟨(p, key), List.mem_filter.mpr ⟨h, by simp⟩, rfl⟩
    exact mapGet_foldl_mapDelete _ _ hmem
  · refine ⟨by decide, by decide, by decide, by decide⟩

/-- C10 witness: a still-unsettled entry registered under a key is
removed when an older promise with a `finally` handler for the same key
settles. -/
theorem settle_deletes_entry_of_key_witness :
    mapGet "k" (settle 0 ⟨[("k", ⟨1, 1500⟩)], [(0, "k")], true, 2⟩).pendingQueries = none :=
  settle_deletes_entry_of_key.1 ⟨[("k", ⟨1, 1500⟩)], [(0, "k")], true, 2⟩ 0 "k" (by decide)

end QueryDeduplicationMiddleware

/-- C4 counterexample: at `pageLimit = 0` with a non-empty item list,
`buildResult` reports `hasMore = true` yet returns `nextCursor = null`,
not `getCursor` of a retained item (there is none), refuting the claim
as universally stated. -/
theorem buildResult_pageLimit_zero_cursorless :
    (PaginationHelper.buildResult ["a"] 0 (fun _ => "c")).hasMore = true ∧
    (PaginationHelper.buildResult ["a"] 0 (fun _ => "c")).nextCursor = none := by
  constructor <;> rfl

/-- C4 (amended): for every item list, page limit and cursor function,
if `items.length ≤ pageLimit` then all items are returned with
`hasMore = false` and `nextCursor = null`; if `pageLimit < items.length`
and `pageLimit > 0` then the items are trimmed to the first `pageLimit`
elements, `hasMore = true` and `nextCursor = getCursor` of the last
retained item (`items[pageLimit-1]`); and in the residual case
`pageLimit = 0 < items.length` the result is empty with
`hasMore = true` and `nextCursor = null`. -/
theorem buildResult_spec {T : Type} (items : List T) (pageLimit : Nat)
    (getCursor : T → String) :
    (items.length ≤ pageLimit →
      PaginationHelper.buildResult items pageLimit getCursor =
        { items := items, nextCursor := none, hasMore := false }) ∧
    (pageLimit < items.length → 0 < pageLimit →
      PaginationHelper.buildResult items pageLimit getCursor =
        { items := items.take pageLimit,
          nextCursor := (items[pageLimit - 1]?).map getCursor,
          hasMore := true }) ∧
    (pageLimit = 0 → 0 < items.length →
      PaginationHelper.buildResult items pageLimit getCursor =
        { items := [], nextCursor := none, hasMore := true }) := by
  refine ⟨fun hle => ?_, fun hlt hpos => ?_, fun h0 hne => ?_⟩
  · have hm : ¬ (items.length > pageLimit) := by omega
    simp [PaginationHelper.buildResult, hm]
  · have hm : items.length > pageLimit := hlt
    have hlen : (items.take pageLimit).length = pageLimit := by
      simp [List.length_take]; omega
    have hlast : (items.take pageLimit).getLast? = items[pageLimit - 1]? := by
      rw [List.getLast?_eq_getElem? _, hlen, List.getElem?_take]
      simp [Nat.sub_lt hpos Nat.one_pos]
    simp [PaginationHelper.buildResult, hm, hlen, hlast, hpos]
  · subst h0
    have hm : items.length > 0 := hne
    simp [PaginationHelper.buildResult, hm]

/-- C4 witness: eleven items with `pageLimit = 10` yield the first ten
items, `hasMore = true` and the cursor of the tenth item. -/
theorem buildResult_spec_witness :
    PaginationHelper.buildResult
      ["a0","a1","a2","a3","a4","a5","a6","a7","a8","a9","a10"] 10 (fun s => s) =
      { items := (["a0","a1","a2","a3","a4","a5","a6","a7","a8","a9","a10"] :
            List String).take 10,
        nextCursor := ((["a0","a1","a2","a3","a4","a5","a6","a7","a8","a9","a10"] :
            List String)[10 - 1]?).map (fun s => s),
        hasMore := true } :=
  (buildResult_spec ["a0","a1","a2","a3","a4","a5","a6","a7","a8","a9","a10"]
    10 (fun s => s)).2.1 (by decide) (by decide)

/-- C5: quota errors are never retryable — `isQuotaError e = true`
forces `isRetryableError e = false` for every error shape — and on the
concrete shapes: `{code: "resource-exhausted"}` is not retryable,
`{code: "unavailable"}` is retryable, and
`{message: "Quota exceeded for today"}` is a quota error. -/
theorem quota_errors_never_retryable :
    (∀ e : JsError, isQuotaError e = true → isRetryableError e = false) ∧
    isRetryableError (.obj (some "resource-exhausted") none none) = false ∧
    isRetryableError (.obj (some "unavailable") none none) = true ∧
    isQuotaError (.obj none (some "Quota exceeded for today") none) = true := by
  refine ⟨fun e h => ?_, by decide, by decide, by decide⟩
  simp [isRetryableError, h]

/-- C5 witness: a concrete quota-shaped error is classified
non-retryable through the theorem. -/
theorem quota_errors_never_retryable_witness :
    isRetryableError (.obj none (some "quota") none) = false :=
  quota_errors_never_retryable.1 (.obj none (some "quota") none) (by decide)

namespace QuotaMonitorService

theorem readCount_foldl (evs : List QuotaEvent) (m : QuotaMetrics) :
    (evs.foldl applyEvent m).readCount = m.readCount + (readIncrements evs).sum := by
  induction evs generalizing m with
  | nil => simp [readIncrements]
  | cons e tl ih =>
    cases e with
    | incrementRead c =>
      simp only [List.foldl_cons, ih, applyEvent, readIncrements, List.filterMap_cons]
      simp [readIncrements]
      omega
    | incrementWrite c =>
      simp only [List.foldl_cons, ih, applyEvent, readIncrements, List.filterMap_cons]
    | incrementDelete c =>
      simp only [List.foldl_cons, ih, applyEvent, readIncrements, List.filterMap_cons]

end QuotaMonitorService

/-- C8: for every event sequence applied after a reset, the read
counter equals the sum of the counts passed to the `incrementRead`
calls (write/delete increments interleaved freely), and `resetMetrics`
zeroes all three counters and sets the window-start timestamp to the
reset time (the same state the constructor builds). -/
theorem quota_read_count_is_sum (now : Int)
    (evs : List QuotaMonitorService.QuotaEvent) :
    (QuotaMonitorService.getMetrics
        (evs.foldl QuotaMonitorService.applyEvent
          (QuotaMonitorService.resetMetrics now))).readCount =
      (QuotaMonitorService.readIncrements evs).sum ∧
    QuotaMonitorService.resetMetrics now =
      { readCount := 0, writeCount := 0, deleteCount := 0, timestamp := now } := by
  refine ⟨?_, rfl⟩
  rw [QuotaMonitorService.getMetrics, QuotaMonitorService.readCount_foldl]
  simp [QuotaMonitorService.resetMetrics]

namespace RequestLoggerService

theorem logAppend_foldl_drop (es : List RequestLog) :
    es.foldl logAppend [] = es.drop (es.length - MAX_LOGS) := by
  induction es using List.reverseRecOn with
  | nil => rfl
  | append_singleton l e ih =>
    rw [List.foldl_append, List.foldl_cons, List.foldl_nil, ih]
    rcases Nat.lt_or_ge l.length MAX_LOGS with h | h
    · have h0 : l.length - MAX_LOGS = 0 := by omega
      have h1 : (l ++ [e]).length - MAX_LOGS = 0 := by
        simp only [List.length_append, List.length_cons, List.length_nil]
        omega
      have hno : ¬ ((l ++ [e]).length > MAX_LOGS) := by
        simp only [List.length_append, List.length_cons, List.length_nil]
        omega
      rw [h0, List.drop_zero, h1, List.drop_zero]
      simp only [logAppend, if_neg hno]
    · have hMpos : 1 ≤ MAX_LOGS := by decide
      have hslen : (l.drop (l.length - MAX_LOGS)).length = MAX_LOGS := by
        rw [List.length_drop]; omega
      have hgt : ((l.drop (l.length - MAX_LOGS)) ++ [e]).length > MAX_LOGS := by
        simp only [List.length_append, List.length_cons, List.length_nil, hslen]
        omega
      simp only [logAppend, if_pos hgt]
      rw [List.drop_append_of_le_length (by rw [hslen]; exact hMpos),
        List.drop_drop]
      have harith : (l ++ [e]).length - MAX_LOGS = 1 + (l.length - MAX_LOGS) := by
        simp only [List.length_append, List.length_cons, List.length_nil]
        omega
      have hcomm : l.length - MAX_LOGS + 1 = 1 + (l.length - MAX_LOGS) := by omega
      rw [hcomm, harith,
        List.drop_append_of_le_length (by omega : 1 + (l.length - MAX_LOGS) ≤ l.length)]

end RequestLoggerService

/-- Distinct log entries used to instantiate the capacity property:
entry `i` carries timestamp `i`. -/
def mkLog (i : Nat) : RequestLog :=
  { id := "", timestamp := (i : Int), type := .read, collection := "c",
    documentId := none, success := true, error := none, cached := false,
    duration := none }

theorem mkLog_injective : Function.Injective mkLog := by
  intro a b h
  have := congrArg RequestLog.timestamp h
  simpa [mkLog] using this

/-- C6: the request log never exceeds its capacity of `MAX_LOGS = 1000`
entries (`logRequest` preserves the bound), insertion beyond capacity
evicts oldest-first (from an empty log, folding any entry sequence
leaves exactly the last `MAX_LOGS` entries, i.e. the sequence with its
oldest overflow dropped), and concretely inserting `MAX_LOGS + 50`
distinct entries into an empty log leaves exactly `MAX_LOGS` entries
with the 50 oldest inserted entries absent. -/
theorem request_log_bounded_fifo :
    (∀ (logs : List RequestLog) (e : RequestLog),
      logs.length ≤ RequestLoggerService.MAX_LOGS →
      (RequestLoggerService.logAppend logs e).length ≤ RequestLoggerService.MAX_LOGS) ∧
    (∀ es : List RequestLog,
      es.foldl RequestLoggerService.logAppend [] =
        es.drop (es.length - RequestLoggerService.MAX_LOGS)) ∧
    (((List.range (RequestLoggerService.MAX_LOGS + 50)).map mkLog).foldl
        RequestLoggerService.logAppend []).length = RequestLoggerService.MAX_LOGS ∧
    (∀ i < 50, mkLog i ∉
      ((List.range (RequestLoggerService.MAX_LOGS + 50)).map mkLog).foldl
        RequestLoggerService.logAppend []) := by
  have hlen : ((List.range (RequestLoggerService.MAX_LOGS + 50)).map mkLog).length =
      RequestLoggerService.MAX_LOGS + 50 := by
    simp
  refine ⟨fun logs e hle => ?_, RequestLoggerService.logAppend_foldl_drop, ?_, ?_⟩
  · simp only [RequestLoggerService.logAppend]
    split
    · simp only [List.length_drop, List.length_append, List.length_cons, List.length_nil]
      omega
    · next hno =>
      simp only [List.length_append, List.length_cons, List.length_nil] at hno ⊢
      omega
  · rw [RequestLoggerService.logAppend_foldl_drop, List.length_drop, hlen]
    omega
  · intro i hi
    rw [RequestLoggerService.logAppend_foldl_drop, hlen]
    have hdrop : RequestLoggerService.MAX_LOGS + 50 - RequestLoggerService.MAX_LOGS = 50 := by
      omega
    rw [hdrop]
    have htake : mkLog i ∈
        ((List.range (RequestLoggerService.MAX_LOGS + 50)).map mkLog).take 50 := by
      rw [← List.map_take, List.take_range]
      exact List.mem_map.mpr ⟨i, by simp [List.mem_range]; omega, rfl⟩
    have hnodup : ((List.range (RequestLoggerService.MAX_LOGS + 50)).map mkLog).Nodup :=
      (List.nodup_range _).map mkLog_injective
    exact fun hmem => List.disjoint_take_drop hnodup le_rfl htake hmem

/-- C6 witness: appending to a within-capacity log keeps the bound. -/
theorem request_log_bounded_fifo_witness :
    (RequestLoggerService.logAppend [] (mkLog 0)).length ≤ RequestLoggerService.MAX_LOGS :=
  request_log_bounded_fifo.1 [] (mkLog 0) (by decide)

/-- C7: with all three limits positive, each percentage equals
`100 * count / limit` (exact arithmetic), `isNearLimit` holds iff some
percentage is ≥ 80 and `isOverLimit` iff some percentage is ≥ 100; and
with `dailyReadLimit = 100`, `readCount = 80` is near-limit but not
over-limit while `readCount = 100` is over-limit. -/
theorem calculateStatus_spec (m : QuotaMetrics) (l : QuotaLimits)
    (hr : 0 < l.dailyReadLimit) (hw : 0 < l.dailyWriteLimit)
    (hd : 0 < l.dailyDeleteLimit) :
    ((QuotaCalculator.calculateStatus m l).readPercentage =
        100 * (m.readCount : Rat) / (l.dailyReadLimit : Rat) ∧
      (QuotaCalculator.calculateStatus m l).writePercentage =
        100 * (m.writeCount : Rat) / (l.dailyWriteLimit : Rat) ∧
      (QuotaCalculator.calculateStatus m l).deletePercentage =
        100 * (m.deleteCount : Rat) / (l.dailyDeleteLimit : Rat)) ∧
    ((QuotaCalculator.calculateStatus m l).isNearLimit = true ↔
      80 ≤ (QuotaCalculator.calculateStatus m l).readPercentage ∨
      80 ≤ (QuotaCalculator.calculateStatus m l).writePercentage ∨
      80 ≤ (QuotaCalculator.calculateStatus m l).deletePercentage) ∧
    ((QuotaCalculator.calculateStatus m l).isOverLimit = true ↔
      100 ≤ (QuotaCalculator.calculateStatus m l).readPercentage ∨
      100 ≤ (QuotaCalculator.calculateStatus m l).writePercentage ∨
      100 ≤ (QuotaCalculator.calculateStatus m l).deletePercentage) ∧
    (QuotaCalculator.calculateStatus ⟨80, 0, 0, 0⟩ ⟨100, 20000, 20000⟩).isNearLimit
        = true ∧
    (QuotaCalculator.calculateStatus ⟨80, 0, 0, 0⟩ ⟨100, 20000, 20000⟩).isOverLimit
        = false ∧
    (QuotaCalculator.calculateStatus ⟨100, 0, 0, 0⟩ ⟨100, 20000, 20000⟩).isOverLimit
        = true := by
  refine ⟨⟨?_, ?_, ?_⟩, ?_, ?_, ?_, ?_, ?_⟩
  · simp only [QuotaCalculator.calculateStatus]; ring
  · simp only [QuotaCalculator.calculateStatus]; ring
  · simp only [QuotaCalculator.calculateStatus]; ring
  · simp [QuotaCalculator.calculateStatus, Bool.or_eq_true, decide_eq_true_eq, ge_iff_le]
    tauto
  · simp [QuotaCalculator.calculateStatus, Bool.or_eq_true, decide_eq_true_eq, ge_iff_le]
    tauto
  · simp only [QuotaCalculator.calculateStatus, Bool.or_eq_true, decide_eq_true_eq,
      ge_iff_le]
    left
    norm_num
  · simp only [QuotaCalculator.calculateStatus, Bool.or_eq_false_iff,
      decide_eq_false_iff_not, ge_iff_le, not_le]
    norm_num
  · simp only [QuotaCalculator.calculateStatus, Bool.or_eq_true, decide_eq_true_eq,
      ge_iff_le]
    left
    norm_num

/-- C7 witness: the percentage formula at zero counts and unit limits. -/
theorem calculateStatus_spec_witness :
    (QuotaCalculator.calculateStatus ⟨0, 0, 0, 0⟩ ⟨1, 1, 1⟩).readPercentage =
      100 * (((⟨0, 0, 0, 0⟩ : QuotaMetrics).readCount : Rat)) /
        (((⟨1, 1, 1⟩ : QuotaLimits).dailyReadLimit : Rat)) :=
  (calculateStatus_spec ⟨0, 0, 0, 0⟩ ⟨1, 1, 1⟩ (by decide) (by decide) (by decide)).1.1

/-- C2 counterexample: a successful operation tracked with type
`listener` appends no request-log entry at all (the claim requires
exactly one) and leaves the quota metrics untouched. -/
theorem trackOperation_listener_success_unlogged :
    ¬ ((QuotaTrackingMiddleware.trackOperation (T := Int)
        ⟨.listener, "c", none, 1, false⟩ (.ok 0) 5 "i" 0
        ⟨0, 0, 0, 0⟩ []).2.2.length = ([] : List RequestLog).length + 1) ∧
    (QuotaTrackingMiddleware.trackOperation (T := Int)
        ⟨.listener, "c", none, 1, false⟩ (.ok 0) 5 "i" 0 ⟨0, 0, 0, 0⟩ []) =
      (.ok 0, ⟨0, 0, 0, 0⟩, []) := by
  constructor <;> decide

/-- C2 (amended): for operation types `read`, `write` and `delete`,
`trackOperation` appends exactly one request-log entry recording
success/failure, the duration and the cache flag in both outcomes; on
success it increments the matching quota counter; on failure it leaves
the quota untouched, appends the failure entry and rethrows the
original error unchanged.  For type `listener`, the failure path
appends one entry and rethrows, but the success path appends no entry
and increments nothing. -/
theorem trackOperation_spec {T : Type} (op : TrackedOperation) (t : T) (msg : String)
    (duration : Int) (id : String) (now : Int) (qm : QuotaMetrics)
    (logs : List RequestLog) :
    (QuotaTrackingMiddleware.trackOperation (T := T) op (.err msg) duration id now qm logs =
      (.err msg, qm, RequestLoggerService.logRequest logs
        ⟨op.type, op.collection, op.documentId, false, some msg, false, some duration⟩
        id now)) ∧
    (op.type = .read →
      QuotaTrackingMiddleware.trackOperation op (.ok t) duration id now qm logs =
        (.ok t, QuotaMonitorService.applyEvent qm (.incrementRead op.count),
          RequestLoggerService.logRequest logs
            ⟨.read, op.collection, op.documentId, true, none, op.cached, some duration⟩
            id now)) ∧
    (op.type = .write →
      QuotaTrackingMiddleware.trackOperation op (.ok t) duration id now qm logs =
        (.ok t, QuotaMonitorService.applyEvent qm (.incrementWrite op.count),
          RequestLoggerService.logRequest logs
            ⟨.write, op.collection, op.documentId, true, none, false, some duration⟩
            id now)) ∧
    (op.type = .delete →
      QuotaTrackingMiddleware.trackOperation op (.ok t) duration id now qm logs =
        (.ok t, QuotaMonitorService.applyEvent qm (.incrementDelete op.count),
          RequestLoggerService.logRequest logs
            ⟨.delete, op.collection, op.documentId, true, none, false, some duration⟩
            id now)) ∧
    (op.type = .listener →
      QuotaTrackingMiddleware.trackOperation op (.ok t) duration id now qm logs =
        (.ok t, qm, logs)) ∧
    (logs.length < RequestLoggerService.MAX_LOGS →
      ∀ input : RequestLogInput,
        (RequestLoggerService.logRequest logs input id now).length = logs.length + 1) := by
  refine ⟨rfl, fun h => ?_, fun h => ?_, fun h => ?_, fun h => ?_, fun hlt input => ?_⟩
  · simp [QuotaTrackingMiddleware.trackOperation, h]
  · simp [QuotaTrackingMiddleware.trackOperation, h]
  · simp [QuotaTrackingMiddleware.trackOperation, h]
  · simp [QuotaTrackingMiddleware.trackOperation, h]
  · have hMpos : RequestLoggerService.MAX_LOGS = 1000 := rfl
    simp only [RequestLoggerService.logRequest, RequestLoggerService.logAppend]
    rw [if_neg (by
      simp only [List.length_append, List.length_cons, List.length_nil]
      omega)]
    simp

/-- C2 witness: a successful tracked read increments the read counter
and appends one success entry with duration and cache flag. -/
theorem trackOperation_spec_witness :
    QuotaTrackingMiddleware.trackOperation (T := Int) ⟨.read, "c", none, 1, true⟩
        (.ok 7) 5 "i" 9 ⟨0, 0, 0, 0⟩ [] =
      (.ok 7, QuotaMonitorService.applyEvent ⟨0, 0, 0, 0⟩ (.incrementRead 1),
        RequestLoggerService.logRequest []
          ⟨.read, "c", none, true, none, true, some 5⟩ "i" 9) :=
  (trackOperation_spec ⟨.read, "c", none, 1, true⟩ 7 "x" 5 "i" 9 ⟨0, 0, 0, 0⟩ []).2.1 rfl

/-- C9: the fingerprint function is not injective — a collection name
containing the `"|"` separator collides with a differently split
key, and an empty-string `orderBy` collides with an absent one. -/
theorem generateQueryKey_not_injective :
    (∃ k1 k2 : QueryDeduplicationMiddleware.QueryKey, k1 ≠ k2 ∧
      QueryDeduplicationMiddleware.generateQueryKey k1 =
        QueryDeduplicationMiddleware.generateQueryKey k2) ∧
    QueryDeduplicationMiddleware.generateQueryKey ⟨"a|b", "c", none, none⟩ =
      QueryDeduplicationMiddleware.generateQueryKey ⟨"a", "b|c", none, none⟩ ∧
    QueryDeduplicationMiddleware.generateQueryKey ⟨"a", "f", none, some ""⟩ =
      QueryDeduplicationMiddleware.generateQueryKey ⟨"a", "f", none, none⟩ := by
  exact ⟨⟨⟨"a|b", "c", none, none⟩, ⟨"a", "b|c", none, none⟩, by decide, by decide⟩,
    by decide, by decide⟩

end Firestore
